import Mathlib

/-!
Verification of the natural-language specification of scripts/fix-ts.py
(a diagnostic-driven TypeScript source patcher) against a shallow
embedding of its code.  The Python regular-expression substitutions are
compiled by hand into executable character-list scanners that reproduce
the semantics of the specific patterns in the source (leftmost,
non-overlapping scanning; lazy and greedy quantifier behaviour where it
matters; Python str.replace replace-all semantics, including its
empty-pattern behaviour).  File handling and the orchestration loop in
main are modelled with an explicit association-list file system, a write
failure oracle and an event trace.
-/

namespace FixTs

abbrev Chars := List Char

/-- Python regex whitespace class (ASCII part), used by the patterns in fix-ts.py. -/
def isWs (c : Char) : Bool :=
  c = ' ' || c = '\t' || c = '\n' || c = '\r' || c = '\x0b' || c = '\x0c'

/-- Python regex word-character class (ASCII part). -/
def isWordChar (c : Char) : Bool :=
  c.isAlpha || c.isDigit || c = '_'

/-- Does the second list start with the first one? -/
def startsWithL : Chars → Chars → Bool
  | [], _ => true
  | _ :: _, [] => false
  | p :: ps, c :: cs => p = c && startsWithL ps cs

/-- Substring test, Python `pat in s`. -/
def containsSub (pat : Chars) : Chars → Bool
  | [] => startsWithL pat []
  | c :: t => startsWithL pat (c :: t) || containsSub pat t

def dropWhileWs : Chars → Chars
  | [] => []
  | c :: t => if isWs c then dropWhileWs t else c :: t

/-- Python str.strip. -/
def stripWs (s : Chars) : Chars :=
  dropWhileWs (dropWhileWs s.reverse).reverse

/-- Python str.replace with an empty pattern inserts the replacement at every
position, including both ends. -/
def sprinkle (rep : Chars) : Chars → Chars
  | [] => rep
  | c :: t => rep ++ c :: sprinkle rep t

def replaceAllF (pat rep : Chars) : Nat → Chars → Chars
  | 0, s => s
  | fuel + 1, s =>
    if startsWithL pat s then rep ++ replaceAllF pat rep fuel (s.drop pat.length)
    else
      match s with
      | [] => []
      | c :: t => c :: replaceAllF pat rep fuel t

/-- Python str.replace: replace all non-overlapping occurrences, left to right. -/
def replaceAll (s pat rep : Chars) : Chars :=
  match pat with
  | [] => sprinkle rep s
  | _ => replaceAllF pat rep (s.length + 1) s

/-- Greedy whitespace munch, for a regex star over whitespace followed by a
non-whitespace literal. -/
def takeWs : Chars → Chars × Chars
  | [] => ([], [])
  | c :: t =>
    if isWs c then
      let (a, b) := takeWs t
      (c :: a, b)
    else ([], c :: t)

/-- Greedy word-character munch, for a regex plus over word characters followed
by a non-word literal. -/
def takeWord : Chars → Chars × Chars
  | [] => ([], [])
  | c :: t =>
    if isWordChar c then
      let (a, b) := takeWord t
      (c :: a, b)
    else ([], c :: t)

def takeDigits : Chars → Chars × Chars
  | [] => ([], [])
  | c :: t =>
    if c.isDigit then
      let (a, b) := takeDigits t
      (c :: a, b)
    else ([], c :: t)

/-- Match a literal and return the rest. -/
def litP (lit s : Chars) : Option Chars :=
  if startsWithL lit s then some (s.drop lit.length) else none

/-! ### Rule 1, pattern 1 of fix_supabase_never_types (fix-ts.py lines 51-70)

The regex
`const\s+\{\s*data:\s*(\w+)(?:,\s*error:\s*(\w+))?\s*\}\s*=\s*await\s+supabase\s*\.from\([\x27"](\w+)[\x27"]\)\s*\.select\(`
is deterministic for the reasons noted on each step (every quantified class is
followed by a literal outside the class), so it compiles to a recursive
descent matcher. -/

structure P1Match where
  g0 : Chars
  dataVar : Chars
  errVar : Option Chars
  table : Chars
  rest : Chars

def matchQuote : Chars → Option Chars
  | c :: t => if c = '\x27' || c = '"' then some t else none
  | [] => none

def matchP1At (s : Chars) : Option P1Match := do
  let r ← litP "const".data s
  let (w1, r) := takeWs r
  if w1.isEmpty then none else
  let r ← litP ['\x7b'] r
  let (_, r) := takeWs r
  let r ← litP "data:".data r
  let (_, r) := takeWs r
  let (dv, r) := takeWord r
  if dv.isEmpty then none else
  -- optional group (?:,\s*error:\s*(\w+))? : taken exactly when a comma is
  -- next; if its tail then fails, no other alternative can succeed, since a
  -- comma can start neither \s*\} nor a longer data variable
  let (ev, r) ← (match r with
    | ',' :: r2 =>
      let (_, r3) := takeWs r2
      match litP "error:".data r3 with
      | none => none
      | some r4 =>
        let (_, r5) := takeWs r4
        let (evv, r6) := takeWord r5
        if evv.isEmpty then none else some (some evv, r6)
    | _ => some (none, r))
  let (_, r) := takeWs r
  let r ← litP ['\x7d'] r
  let (_, r) := takeWs r
  let r ← litP ['='] r
  let (_, r) := takeWs r
  let r ← litP "await".data r
  let (w2, r) := takeWs r
  if w2.isEmpty then none else
  let r ← litP "supabase".data r
  let (_, r) := takeWs r
  let r ← litP ".from(".data r
  let r ← matchQuote r
  let (tb, r) := takeWord r
  if tb.isEmpty then none else
  let r ← matchQuote r
  let r ← litP [')'] r
  let (_, r) := takeWs r
  let r ← litP ".select(".data r
  some ⟨s.take (s.length - r.length), dv, ev, tb, r⟩

/-- The add_type_assertion replacement closure (fix-ts.py lines 55-68): skip if
the matched span already contains an assertion, otherwise emit the normalised
statement text — which contains no assertion — and count one fix. -/
def add_type_assertion (m : P1Match) : Chars × Nat :=
  if containsSub " as ".data m.g0 then (m.g0, 0)
  else
    let canon :=
      match m.errVar with
      | some ev =>
        "const \x7b data: ".data ++ m.dataVar ++ ", error: ".data ++ ev ++
          " \x7d = await supabase.from(\x27".data ++ m.table ++ "\x27).select(".data
      | none =>
        "const \x7b data: ".data ++ m.dataVar ++
          " \x7d = await supabase.from(\x27".data ++ m.table ++ "\x27).select(".data
    (canon, 1)

def subP1 : Nat → Chars → Chars × Nat
  | 0, s => (s, 0)
  | fuel + 1, s =>
    match matchP1At s with
    | some m =>
      let (rep, k) := add_type_assertion m
      let (out, k2) := subP1 fuel m.rest
      (rep ++ out, k + k2)
    | none =>
      match s with
      | [] => ([], 0)
      | c :: t =>
        let (out, k) := subP1 fuel t
        (c :: out, k)

/-! ### Rule 1, pattern 2: the insert/update argument rewrite
(fix-ts.py lines 72-90), regex `\.(insert|update)\(([^)]+)\)`. -/

/-- Split at the first closing parenthesis: the greedy `[^)]+` followed by `\)`
takes everything up to the first `)`. -/
def splitAtParen : Chars → Option (Chars × Chars)
  | [] => none
  | c :: t =>
    if c = ')' then some ([], t)
    else
      match splitAtParen t with
      | none => none
      | some (a, r) => some (c :: a, r)

/-- The fix_insert_update replacement closure (fix-ts.py lines 74-88). -/
def fix_insert_update (method arg : Chars) : Chars × Nat :=
  let g0 := '.' :: (method ++ '(' :: (arg ++ [')']))
  if containsSub " as ".data arg then (g0, 0)
  else if startsWithL ['\x7b'] (stripWs arg) ||
      (!(stripWs arg).isEmpty && (stripWs arg).all isWordChar) then
    ('.' :: (method ++ '(' :: (arg ++ " as any)".data)), 1)
  else (g0, 0)

def matchIUAt (s : Chars) : Option (Chars × Chars × Chars) :=
  match litP ".insert(".data s with
  | some r =>
    match splitAtParen r with
    | some (arg, rest) => if arg.isEmpty then none else some ("insert".data, arg, rest)
    | none => none
  | none =>
    match litP ".update(".data s with
    | some r =>
      match splitAtParen r with
      | some (arg, rest) => if arg.isEmpty then none else some ("update".data, arg, rest)
      | none => none
    | none => none

def subIU : Nat → Chars → Chars × Nat
  | 0, s => (s, 0)
  | fuel + 1, s =>
    match matchIUAt s with
    | some (method, arg, rest) =>
      let (rep, k) := fix_insert_update method arg
      let (out, k2) := subIU fuel rest
      (rep ++ out, k + k2)
    | none =>
      match s with
      | [] => ([], 0)
      | c :: t =>
        let (out, k) := subIU fuel t
        (c :: out, k)

/-- fix_supabase_never_types as a content transformation (fix-ts.py lines
45-96): both substitutions share one fix counter, and the function reports 0
when the final content equals the original. -/
def fix_supabase_never_types (c : String) : String × Nat :=
  let l := c.data
  let (l1, f1) := subP1 (l.length + 1) l
  let (l2, f2) := subIU (l1.length + 1) l1
  if l2 = l then (c, 0) else (String.mk l2, f1 + f2)

/-! ### Rule 2: fix_any_to_never_errors (fix-ts.py lines 98-122)

Two substitutions, `\.eq\([\x27"](\w+)[\x27"]\s*,\s*(\w+)\)` and the same for
`in`.  The raw-string replacement templates contain `\x27` escaped with a
backslash, which the regex replacement engine keeps verbatim, so the rewritten
call carries literal backslash-quote pairs. -/

def matchEqInAt (name s : Chars) : Option (Chars × Chars × Chars) := do
  let r ← litP ('.' :: (name ++ ['('])) s
  let r ← matchQuote r
  let (col, r) := takeWord r
  if col.isEmpty then none else
  let r ← matchQuote r
  let (_, r) := takeWs r
  let r ← litP [','] r
  let (_, r) := takeWs r
  let (v, r) := takeWord r
  if v.isEmpty then none else
  let r ← litP [')'] r
  some (col, v, r)

def eqInReplacement (name col v : Chars) : Chars :=
  '.' :: (name ++ "(\\\x27".data ++ col ++ "\\\x27, ".data ++ v ++ " as any)".data)

def subEqIn (name : Chars) : Nat → Chars → Chars
  | 0, s => s
  | fuel + 1, s =>
    match matchEqInAt name s with
    | some (col, v, rest) => eqInReplacement name col v ++ subEqIn name fuel rest
    | none =>
      match s with
      | [] => []
      | c :: t => c :: subEqIn name fuel t

/-- fix_any_to_never_errors as a content transformation: the counter is
incremented once per pattern whose substitution changed the content, and the
function reports 0 when the final content equals the original. -/
def fix_any_to_never_errors (c : String) : String × Nat :=
  let l := c.data
  let l1 := subEqIn "eq".data (l.length + 1) l
  let f1 := if l1 ≠ l then 1 else 0
  let l2 := subEqIn "in".data (l1.length + 1) l1
  let f2 := if l2 ≠ l1 then f1 + 1 else f1
  if l2 = l then (c, 0) else (String.mk l2, f2)

/-! ### Rule 3: fix_error_handling (fix-ts.py lines 124-163)

The regex
`catch\s*\((\w+)\)\s*\{([^}]*?)(?:logger\.error|console\.error)\s*\([^\)]*?,\s*\1\s*\)`
backtracks: the lazy block grows one character at a time (never across a
closing brace) until the logging-call tail matches, and inside the call the
lazy argument part grows until a comma is found whose tail matches the caught
variable followed by a closing parenthesis. -/

/-- The lazy `[^\)]*?,\s*\1\s*\)` search: grow over non-parenthesis characters;
at each comma try whitespace, the captured variable, whitespace and a closing
parenthesis; on failure keep growing past the comma. -/
def innerArgSearch (evar : Chars) : Chars → Option Chars
  | [] => none
  | c :: t =>
    if c = ')' then none
    else if c = ',' then
      let (_, r1) := takeWs t
      match litP evar r1 with
      | some r2 =>
        let (_, r3) := takeWs r2
        match r3 with
        | ')' :: r4 => some r4
        | _ => innerArgSearch evar t
      | none => innerArgSearch evar t
    else innerArgSearch evar t

/-- The `(?:logger\.error|console\.error)\s*\(` tail followed by the inner
argument search. -/
def matchCallAt (evar s : Chars) : Option Chars :=
  let afterName :=
    match litP "logger.error".data s with
    | some r => some r
    | none => litP "console.error".data s
  match afterName with
  | some r =>
    let (_, r1) := takeWs r
    match r1 with
    | '(' :: r2 => innerArgSearch evar r2
    | _ => none
  | none => none

/-- The lazy `([^}]*?)` block search: try the logging-call tail at each
length, growing the block one character at a time and never across a closing
brace. -/
def blockSearch (evar : Chars) (acc : Chars) : Chars → Option (Chars × Chars)
  | [] =>
    match matchCallAt evar [] with
    | some rest => some (acc.reverse, rest)
    | none => none
  | c :: t =>
    match matchCallAt evar (c :: t) with
    | some rest => some (acc.reverse, rest)
    | none => if c = '\x7d' then none else blockSearch evar (c :: acc) t

def matchCatchAt (s : Chars) : Option (Chars × Chars × Chars × Chars) := do
  let r ← litP "catch".data s
  let (_, r) := takeWs r
  let r ← litP ['('] r
  let (evar, r) := takeWord r
  if evar.isEmpty then none else
  let r ← litP [')'] r
  let (_, r) := takeWs r
  let r ← litP ['\x7b'] r
  let (block, rest) ← blockSearch evar [] r
  some (s.take (s.length - rest.length), evar, block, rest)

/-- re.search of `\n(\s+)` in the block: the leftmost newline followed by at
least one whitespace character, the group being the greedy whitespace run. -/
def searchIndent : Chars → Option Chars
  | [] => none
  | '\n' :: t =>
    match t with
    | c :: _ => if isWs c then some (takeWs t).1 else searchIndent t
    | [] => none
  | _ :: t => searchIndent t

/-- The fix_catch replacement closure (fix-ts.py lines 134-155): skip when the
block already contains the narrowing declaration for this variable; otherwise
build the handler, splice it in with Python str.replace (all occurrences of the
block text inside the match), and replace every comma-space-variable-paren
occurrence with the narrowed name. -/
def fix_catch (g0 evar block : Chars) : Chars × Nat :=
  let marker := "const err = ".data ++ evar ++ " instanceof Error".data
  if containsSub marker block then (g0, 0)
  else
    let indent :=
      match searchIndent block with
      | some i => i
      | none => "    ".data
    let handler :=
      '\n' :: (indent ++ "const err = ".data ++ evar ++ " instanceof Error ? ".data ++
        evar ++ " : new Error(String(".data ++ evar ++ "));".data)
    let r1 := replaceAll g0 block (handler ++ block)
    let r2 := replaceAll r1 (", ".data ++ evar ++ [')']) ", err)".data
    (r2, 1)

def subCatch : Nat → Chars → Chars × Nat
  | 0, s => (s, 0)
  | fuel + 1, s =>
    match matchCatchAt s with
    | some (g0, evar, block, rest) =>
      let (rep, k) := fix_catch g0 evar block
      let (out, k2) := subCatch fuel rest
      (rep ++ out, k + k2)
    | none =>
      match s with
      | [] => ([], 0)
      | c :: t =>
        let (out, k) := subCatch fuel t
        (c :: out, k)

/-- fix_error_handling as a content transformation (fix-ts.py lines 124-163):
reports 0 when the final content equals the original. -/
def fix_error_handling (c : String) : String × Nat :=
  let l := c.data
  let (l1, f) := subCatch (l.length + 1) l
  if l1 = l then (c, 0) else (String.mk l1, f)

/-! ### The diagnostic parser: parse_errors (fix-ts.py lines 28-43)

Per line, re.match of `^(.+?\.tsx?)\((\d+),(\d+)\): error (TS\d+): (.+)$`.
The lazy leading group is realised by trying every candidate position of the
`.ts`/`.tsx` suffix from the left; a newline stops the search because the dot
class does not cross newlines. -/

structure Diag where
  line : Nat
  col : Nat
  code : String
  message : String
deriving Repr, DecidableEq

def digitsToNat (ds : Chars) : Nat :=
  ds.foldl (fun n c => 10 * n + (c.toNat - 48)) 0

/-- The part after the captured path: `\((\d+),(\d+)\): error (TS\d+): (.+)$`,
where the final anchor accepts the end of the string or a single trailing
newline. -/
def matchTail (s : Chars) : Option (Nat × Nat × String × String) := do
  let r ← litP ['('] s
  let (d1, r) := takeDigits r
  if d1.isEmpty then none else
  let r ← litP [','] r
  let (d2, r) := takeDigits r
  if d2.isEmpty then none else
  let r ← litP "): error TS".data r
  let (d3, r) := takeDigits r
  if d3.isEmpty then none else
  let r ← litP ": ".data r
  let msg := r.takeWhile (fun c => c ≠ '\n')
  let after := r.drop msg.length
  if msg.isEmpty then none else
  if after = [] || after = ['\n'] then
    some (digitsToNat d1, digitsToNat d2, String.mk ("TS".data ++ d3), String.mk msg)
  else none

def findG1 (seen : Chars) : Chars → Option (String × Diag)
  | [] => none
  | c :: t =>
    let cand : Option (String × Diag) :=
      if c = '.' && !seen.isEmpty && startsWithL "ts".data t then
        let afterTs := t.drop 2
        let withX : Option (String × Diag) :=
          match afterTs with
          | 'x' :: t2 =>
            match matchTail t2 with
            | some (l, co, cd, m) =>
              some (String.mk (seen.reverse ++ ".tsx".data), ⟨l, co, cd, m⟩)
            | none => none
          | _ => none
        match withX with
        | some v => some v
        | none =>
          match matchTail afterTs with
          | some (l, co, cd, m) =>
            some (String.mk (seen.reverse ++ ".ts".data), ⟨l, co, cd, m⟩)
          | none => none
      else none
    match cand with
    | some v => some v
    | none => if c = '\n' then none else findG1 (c :: seen) t

def matchLine (line : String) : Option (String × Diag) :=
  findG1 [] line.data

/-- Grouping by file path in first-seen order (defaultdict of list plus dict
insertion order). -/
def insertDiag : List (String × List Diag) → String → Diag → List (String × List Diag)
  | [], p, d => [(p, [d])]
  | (q, ds) :: t, p, d =>
    if q = p then (q, ds ++ [d]) :: t else (q, ds) :: insertDiag t p d

def parseStep (g : List (String × List Diag)) (l : String) : List (String × List Diag) :=
  match matchLine l with
  | none => g
  | some (p, d) => insertDiag g p d

def parse_errors (lines : List String) : List (String × List Diag) :=
  lines.foldl parseStep []

def totalErrors (g : List (String × List Diag)) : Nat :=
  (g.map (fun x => x.2.length)).sum

/-! ### The aggregator: sorted(items, key, reverse=True) at fix-ts.py line 179.

Python sorted is stable, so with reverse=True ties keep their first-seen
order; any stable descending sort produces the same list, and an insertion
sort from the left realises it structurally. -/

def insertRanked (x : String × List Diag) :
    List (String × List Diag) → List (String × List Diag)
  | [] => [x]
  | y :: ys => if x.2.length > y.2.length then x :: y :: ys else y :: insertRanked x ys

def rankFiles (g : List (String × List Diag)) : List (String × List Diag) :=
  g.foldl (fun acc x => insertRanked x acc) []

/-! ### run_tsc (fix-ts.py lines 14-26) and the orchestrator main
(lines 165-220), with an explicit file system, a write-failure oracle and an
event trace.  run_tsc catches every exception, prints a message and returns an
empty line list; main always returns 0. -/

structure TscOut where
  stderr : String
  stdout : String
deriving Repr, DecidableEq

/-- Python str.split of a text on newlines (the empty text yields one empty
line, like Python). -/
def splitNlAux (cur : Chars) : Chars → List String
  | [] => [String.mk cur.reverse]
  | c :: t =>
    if c = '\n' then String.mk cur.reverse :: splitNlAux [] t
    else splitNlAux (c :: cur) t

def splitNl (s : String) : List String :=
  splitNlAux [] s.data

/-- run_tsc: the invocation outcome is a parameter; a raised exception is
swallowed and yields the empty line list; otherwise the standard error text is
split on newlines when non-empty, else the standard output text. -/
def run_tsc (res : Except String TscOut) : List String :=
  match res with
  | .error _ => []
  | .ok r => if r.stderr ≠ "" then splitNl r.stderr else splitNl r.stdout

abbrev FS := List (String × String)

def readFS : FS → String → Option String
  | [], _ => none
  | (q, c) :: t, p => if q = p then some c else readFS t p

def writeFS : FS → String → String → FS
  | [], p, c => [(p, c)]
  | (q, c0) :: t, p, c => if q = p then (q, c) :: t else (q, c0) :: writeFS t p c

inductive Ev where
  | readE (p : String)
  | writeE (p c : String)
deriving Repr, DecidableEq

structure RunErr where
  fs : FS
  trace : List Ev
deriving Repr, DecidableEq

/-- One fix_* call on a file (fix-ts.py lines 45-47 and 92-96 and the two
analogous blocks): read the file, transform the content in memory, write back
only when the content changed; the write can fail, which raises. -/
def applyRuleFile (rule : String → String × Nat) (wfail : String → Bool)
    (fs : FS) (tr : List Ev) (p : String) : Except RunErr (FS × Nat × List Ev) :=
  match readFS fs p with
  | none => .error ⟨fs, tr⟩
  | some c =>
    let tr1 := tr ++ [Ev.readE p]
    let res := rule c
    if res.1 ≠ c then
      if wfail p then .error ⟨fs, tr1⟩
      else .ok (writeFS fs p res.1, res.2, tr1 ++ [Ev.writeE p res.1])
    else .ok (fs, res.2, tr1)

/-- The per-file body of main's loop (fix-ts.py lines 197-200): the three rule
functions run in sequence, each reading the file again. -/
def processFile (wfail : String → Bool) (fs : FS) (tr : List Ev) (p : String) :
    Except RunErr (FS × Nat × List Ev) := do
  let (fs1, k1, tr1) ← applyRuleFile fix_supabase_never_types wfail fs tr p
  let (fs2, k2, tr2) ← applyRuleFile fix_any_to_never_errors wfail fs1 tr1 p
  let (fs3, k3, tr3) ← applyRuleFile fix_error_handling wfail fs2 tr2 p
  .ok (fs3, k1 + k2 + k3, tr3)

/-- main's loop over the ranked files (fix-ts.py lines 191-205): missing files
are skipped; an uncaught exception aborts the whole loop. -/
def patchLoop (wfail : String → Bool) :
    List String → FS → List Ev → Nat → Nat → Except RunErr (FS × Nat × Nat × List Ev)
  | [], fs, tr, tFix, fMod => .ok (fs, tFix, fMod, tr)
  | p :: rest, fs, tr, tFix, fMod =>
    match readFS fs p with
    | none => patchLoop wfail rest fs tr tFix fMod
    | some _ =>
      match processFile wfail fs tr p with
      | .error e => .error e
      | .ok (fs', k, tr') =>
        if k > 0 then patchLoop wfail rest fs' tr' (tFix + k) (fMod + 1)
        else patchLoop wfail rest fs' tr' tFix fMod

structure RunSummary where
  exit : Nat
  fsFinal : FS
  trace : List Ev
  errorsBefore : Nat
  totalFixes : Nat
  filesModified : Nat
  errorsAfter : Option Nat
deriving Repr, DecidableEq

/-- main (fix-ts.py lines 165-220): run the checker, parse, short-circuit with
exit 0 when no diagnostics parsed, otherwise rank, patch every ranked file,
re-run the checker once, and return 0. -/
def mainRun (tsc1 tsc2 : Except String TscOut) (fs : FS) (wfail : String → Bool) :
    Except RunErr RunSummary :=
  let lines := run_tsc tsc1
  let g := parse_errors lines
  let tot := totalErrors g
  if g.isEmpty then .ok ⟨0, fs, [], tot, 0, 0, none⟩
  else
    let ranked := rankFiles g
    match patchLoop wfail (ranked.map (fun x => x.1)) fs [] 0 0 with
    | .error e => .error e
    | .ok (fs', tFix, fMod, tr) =>
      let g2 := parse_errors (run_tsc tsc2)
      .ok ⟨0, fs', tr, tot, tFix, fMod, some (totalErrors g2)⟩

/-! ### Definitions taken from the specification's words, for comparison with
the code-derived definitions above. -/

/-- Modelled from the spec: the diagnostic line shape of section 4.1,
`<path>(<line>,<col>): error <CODE>: <message>` with the code matching
`[A-Z]+[0-9]+` as required of a DiagnosticRecord; the path is the nonempty
text before the first opening parenthesis. -/
def spec_diagnostic_shape (l : String) : Bool :=
  let s := l.data
  let path := s.takeWhile (fun c => c ≠ '(')
  let r := s.drop path.length
  if path.isEmpty then false else
  match litP ['('] r with
  | none => false
  | some r =>
    let (d1, r) := takeDigits r
    if d1.isEmpty then false else
    match litP [','] r with
    | none => false
    | some r =>
      let (d2, r) := takeDigits r
      if d2.isEmpty then false else
      match litP "): error ".data r with
      | none => false
      | some r =>
        let caps := r.takeWhile (fun c => 'A' ≤ c && c ≤ 'Z')
        let r := r.drop caps.length
        if caps.isEmpty then false else
        let (d3, r) := takeDigits r
        if d3.isEmpty then false else
        match litP ": ".data r with
        | none => false
        | some r => !r.isEmpty

/-- Modelled from the spec: a bare identifier in the sense of the
conservative-argument rule — a name, starting with a letter, underscore or
dollar sign, followed by such characters or digits. -/
def spec_bare_identifier (s : String) : Bool :=
  match s.data with
  | [] => false
  | c :: t =>
    (c.isAlpha || c = '_' || c = '$') &&
      t.all (fun d => d.isAlphanum || d = '_' || d = '$')

/-- Modelled from the spec: an object-literal expression in the sense of the
conservative-argument rule — after stripping whitespace, text delimited by an
opening and a closing curly brace. -/
def spec_object_literal (s : String) : Bool :=
  let t := stripWs s.data
  match t with
  | [] => false
  | c :: r => c = '\x7b' && !r.isEmpty && r.getLast? = some '\x7d'

/-! ### Counting helpers used by the theorems. -/

/-- Number of positions where the pattern occurs (pattern assumed nonempty in
use). -/
def substrCount (pat : Chars) : Chars → Nat
  | [] => 0
  | c :: t => (if startsWithL pat (c :: t) then 1 else 0) + substrCount pat t

def countReads (tr : List Ev) : Nat :=
  (tr.filter fun e => match e with | .readE _ => true | _ => false).length

def countWrites (tr : List Ev) : Nat :=
  (tr.filter fun e => match e with | .writeE _ _ => true | _ => false).length

/-! ### Concrete inputs used by the theorems. -/

/-- Content with a nested catch: the error-narrowing regex matched from the
outer catch swallows the inner one, the handler splice lands before the inner
catch, and a second application then fixes the inner catch. -/
def c1Input : String :=
  "catch (q) \x7b catch (e) \x7b console.error(\x27a\x27, e); console.error(\x27b\x27, q)"

/-- The end-to-end scenario input of the spec (section 8), with the code's
actual entry-point name. -/
def c2SpecInput : String :=
  "const \x7b data \x7d = await supabase.from(\x27users\x27).select(\x27*\x27);"

/-- The same statement with the alias form the pattern does match, written
with a double space so the normalising rewrite changes the text. -/
def c2AliasInput : String :=
  "const  \x7b data: d \x7d = await supabase.from(\x27users\x27).select(\x27*\x27);"

/-- Content with two distinct eligible .eq sites. -/
def c5Input : String := "a.eq(\x27x\x27, b); c.eq(\x27y\x27, d);"

/-- Both sites rewritten (with the literal backslash-quote pairs the raw-string
replacement template produces), yet the reported count is 1. -/
def c5Output : String := "a.eq(\\\x27x\\\x27, b as any); c.eq(\\\x27y\\\x27, d as any);"

/-- Content with one eligible .eq site and one eligible catch block. -/
def c6Input : String :=
  "x.eq(\x27a\x27, b); catch (e) \x7b console.error(\x27m\x27, e); \x7d"

def fsC6 : FS := [("f.ts", c6Input)]

def c6Run : Except RunErr (FS × Nat × List Ev) :=
  processFile (fun _ => false) fsC6 [] "f.ts"

def c6Trace : List Ev :=
  match c6Run with
  | .ok (_, _, tr) => tr
  | .error e => e.trace

def c4ContentA : String := "db.insert(x)"

def c4ContentB : String := "z.eq(\x27c\x27, v)"

def fsC4 : FS := [("a.ts", c4ContentA), ("b.ts", c4ContentB)]

/-- Checker output ranking a.ts (two diagnostics) before b.ts (one). -/
def tscC4 : Except String TscOut :=
  Except.ok ⟨"a.ts(1,1): error TS2345: m\na.ts(2,1): error TS2345: m\nb.ts(1,1): error TS2345: m", ""⟩

/-- Write-failure oracle failing exactly on a.ts. -/
def wfailA : String → Bool := fun p => p == "a.ts"

/-- A line of the spec's diagnostic shape whose code does not start with TS. -/
def c8Line : String := "a.ts(5,7): error AB12: oops"

/-- A diagnostic line with zero line and column numbers. -/
def c8ZeroLine : String := "b.tsx(0,0): error TS1: zero"

/-- Seven diagnostic lines giving the grouping a.ts 3, b.ts 1, c.ts 3 in that
discovery order. -/
def c9Lines : List String :=
  ["a.ts(1,1): error TS1: m", "b.ts(1,1): error TS1: m", "a.ts(2,1): error TS1: m",
   "c.ts(1,1): error TS1: m", "c.ts(2,1): error TS1: m", "a.ts(3,1): error TS1: m",
   "c.ts(3,1): error TS1: m"]

def c10Summary : RunSummary := ⟨0, [], [], 0, 0, 0, none⟩

/-- The events one fix_* call produces on an existing file when no write
fails: one read, then one write exactly when the rule changed the content. -/
def ruleTrace (p c : String) (rule : String → String × Nat) : List Ev :=
  if (rule c).1 = c then [Ev.readE p] else [Ev.readE p, Ev.writeE p (rule c).1]

/-- The file system one fix_* call leaves behind in the same situation. -/
def ruleFS (fs : FS) (p c : String) (rule : String → String × Nat) : FS :=
  if (rule c).1 = c then fs else writeFS fs p (rule c).1

/-! ## Theorems -/

set_option maxRecDepth 40000

def exceptBeq {ε α : Type} [DecidableEq ε] [DecidableEq α] : Except ε α → Except ε α → Bool
  | .error x, .error y => decide (x = y)
  | .ok x, .ok y => decide (x = y)
  | _, _ => false

instance {ε α : Type} [DecidableEq ε] [DecidableEq α] : DecidableEq (Except ε α) := fun a b =>
  decidable_of_iff (exceptBeq a b = true)
    (by cases a <;> cases b <;> simp [exceptBeq])

/-- Claim C1: applying any rule a second time to its own output yields fix
count 0 and unchanged content.  The code violates this: on the nested-catch
content c1Input, the error-narrowing rule applied to its own output reports
one further fix and changes the content again, although the rule's own
skip-guard is meant to make re-application a no-op. -/
theorem fix_error_handling_second_application_not_noop :
    (fix_error_handling (fix_error_handling c1Input).1).2 = 1 ∧
    (fix_error_handling (fix_error_handling c1Input).1).1 ≠ (fix_error_handling c1Input).1 :=
  ⟨rfl, by decide⟩

/-- Claim C2: on the spec's end-to-end input the untyped-result binding rule
is claimed to attach a type-escape assertion and report one fix.  The code
does neither: the pattern requires an alias after the data field, so this
statement is not matched at all (content unchanged, count 0); and even on the
alias form that is matched, the replacement text contains no assertion. -/
theorem fix_supabase_never_types_adds_no_marker :
    fix_supabase_never_types c2SpecInput = (c2SpecInput, 0) ∧
    (fix_supabase_never_types c2AliasInput).2 = 1 ∧
    containsSub " as ".data (fix_supabase_never_types c2AliasInput).1.data = false :=
  ⟨rfl, rfl, rfl⟩

/-- Claim C3, counterexample: with a failing checker invocation the run does
not fail — it returns normally with exit code 0, an untouched file system and
an empty event trace. -/
theorem checker_failure_run_returns_ok :
    mainRun (Except.error "spawn failure") (Except.ok ⟨"", ""⟩) [("a.ts", "x")] (fun _ => false) =
      Except.ok ⟨0, [("a.ts", "x")], [], 0, 0, 0, none⟩ :=
  rfl

/-- Claim C3, amended: a checker invocation failure is swallowed by run_tsc,
which returns an empty line list; main then reports zero diagnostics, patches
nothing, and returns exit code 0 regardless of the rest of the environment. -/
theorem checker_failure_swallowed (msg : String) (tsc2 : Except String TscOut)
    (fs : FS) (wfail : String → Bool) :
    mainRun (Except.error msg) tsc2 fs wfail = Except.ok ⟨0, fs, [], 0, 0, 0, none⟩ :=
  rfl

/-- Claim C4, counterexample: with a.ts ranked before b.ts and a write failure
on a.ts, the whole run aborts with the file system unchanged after only the
read of a.ts — b.ts, although patchable, is never read, patched or counted. -/
theorem write_failure_aborts_batch :
    mainRun tscC4 (Except.ok ⟨"", ""⟩) fsC4 wfailA = Except.error ⟨fsC4, [Ev.readE "a.ts"]⟩ ∧
    (fix_any_to_never_errors c4ContentB).1 ≠ c4ContentB :=
  ⟨rfl, by decide⟩

/-- A write failure inside a fix_* function surfaces as an uncaught exception
carrying the untouched file system and the trace up to the failed write. -/
theorem applyRuleFile_write_failure (rule : String → String × Nat)
    (wfail : String → Bool) (fs : FS) (tr : List Ev) (p c : String)
    (hread : readFS fs p = some c) (hfail : wfail p = true)
    (hchg : (rule c).1 ≠ c) :
    applyRuleFile rule wfail fs tr p = Except.error ⟨fs, tr ++ [Ev.readE p]⟩ := by
  unfold applyRuleFile
  rw [hread]
  simp [hchg, hfail]

/-- Claim C4, amended: nothing catches a write failure; when the first ranked
file is rewritten by the first rule and its write fails, the patch loop aborts
immediately with the file system unchanged, so no later file is patched or
counted and no summary is produced. -/
theorem write_failure_uncaught (wfail : String → Bool) (p c : String)
    (rest : List String) (fs : FS)
    (hread : readFS fs p = some c) (hfail : wfail p = true)
    (hchg : (fix_supabase_never_types c).1 ≠ c) :
    patchLoop wfail (p :: rest) fs [] 0 0 = Except.error ⟨fs, [Ev.readE p]⟩ := by
  have h1 := applyRuleFile_write_failure fix_supabase_never_types wfail fs [] p c hread hfail hchg
  unfold patchLoop
  rw [hread]
  unfold processFile
  rw [h1]
  rfl

/-- Claim C4, witness: the amended statement at the concrete two-file
environment of the counterexample. -/
theorem write_failure_uncaught_witness :
    readFS fsC4 "a.ts" = some c4ContentA ∧ wfailA "a.ts" = true ∧
    (fix_supabase_never_types c4ContentA).1 ≠ c4ContentA ∧
    patchLoop wfailA ["a.ts", "b.ts"] fsC4 [] 0 0 = Except.error ⟨fsC4, [Ev.readE "a.ts"]⟩ :=
  ⟨rfl, rfl, by decide,
    write_failure_uncaught wfailA "a.ts" c4ContentA ["b.ts"] fsC4 rfl rfl (by decide)⟩

/-- Claim C5, counterexample: two distinct .eq sites are rewritten (the output
gains two assertion suffixes) but the reported fix count is 1, so the count is
not 1:1 with distinct rewritten sites. -/
theorem fix_any_count_not_per_site :
    fix_any_to_never_errors c5Input = (c5Output, 1) ∧
    substrCount " as any".data c5Output.data = 2 ∧
    substrCount " as any".data c5Input.data = 0 :=
  ⟨rfl, rfl, rfl⟩

/-- Claim C5, amended: fix_any_to_never_errors counts once per pattern (eq,
in) whose substitution changed the content — never more than 2 for any
content — rather than once per rewritten site; the two-site content c5Input
reports 1. -/
theorem fix_any_counts_per_pattern :
    (∀ c : String, (fix_any_to_never_errors c).2 ≤ 2) ∧
    (fix_any_to_never_errors c5Input).2 = 1 := by
  refine ⟨fun c => ?_, rfl⟩
  unfold fix_any_to_never_errors
  dsimp only
  split
  · exact Nat.zero_le 2
  · split <;> split <;> omega

/-- Claim C6, counterexample: in one pass the file f.ts, eligible for the
eq rule and the catch rule, is read three times (once per rule function) and
written twice — not read exactly once and written at most once. -/
theorem file_read_three_times :
    countReads c6Trace = 3 ∧ countWrites c6Trace = 2 ∧
    ¬(countReads c6Trace = 1 ∧ countWrites c6Trace ≤ 1) :=
  ⟨rfl, rfl, by decide⟩

/-- Reading back a file just written. -/
theorem readFS_writeFS (fs : FS) (p c : String) :
    readFS (writeFS fs p c) p = some c := by
  induction fs with
  | nil => simp [writeFS, readFS]
  | cons h t ih =>
    rcases h with ⟨q, c0⟩
    unfold writeFS
    by_cases hq : q = p
    · simp [hq, readFS]
    · simp [hq, readFS, ih]

/-- One fix_* call on an existing file with no write failure: one read, then a
write exactly when the rule changed the content it read. -/
theorem applyRuleFile_ok (rule : String → String × Nat) (fs : FS) (tr : List Ev)
    (p c : String) (hread : readFS fs p = some c) :
    applyRuleFile rule (fun _ => false) fs tr p =
      if (rule c).1 = c then Except.ok (fs, (rule c).2, tr ++ [Ev.readE p])
      else Except.ok (writeFS fs p (rule c).1, (rule c).2,
        tr ++ [Ev.readE p, Ev.writeE p (rule c).1]) := by
  unfold applyRuleFile
  rw [hread]
  by_cases h : (rule c).1 = c
  · simp [h]
  · simp [h]

/-- applyRuleFile restated with the trace and file-system helpers. -/
theorem applyRuleFile_ok2 (rule : String → String × Nat) (fs : FS) (tr : List Ev)
    (p c : String) (hread : readFS fs p = some c) :
    applyRuleFile rule (fun _ => false) fs tr p =
      Except.ok (ruleFS fs p c rule, (rule c).2, tr ++ ruleTrace p c rule) := by
  rw [applyRuleFile_ok rule fs tr p c hread]
  unfold ruleFS ruleTrace
  by_cases h : (rule c).1 = c
  · simp [h]
  · simp [h]

/-- Reading the file back after one fix_* call yields the content that call
left on disk. -/
theorem readFS_ruleFS (rule : String → String × Nat) (fs : FS) (p c : String)
    (hread : readFS fs p = some c) :
    readFS (ruleFS fs p c rule) p = some (rule c).1 := by
  unfold ruleFS
  by_cases h : (rule c).1 = c
  · rw [if_pos h, h, hread]
  · rw [if_neg h]
    exact readFS_writeFS fs p (rule c).1

theorem except_bind_ok {ε α β : Type} (x : α) (f : α → Except ε β) :
    (Except.ok x : Except ε α) >>= f = f x :=
  rfl

/-- The full per-file pass: the three rule functions run in sequence, each
reading the content the previous one left on disk. -/
theorem processFile_ok (fs : FS) (p c : String) (hread : readFS fs p = some c) :
    processFile (fun _ => false) fs [] p =
      Except.ok
        (ruleFS (ruleFS (ruleFS fs p c fix_supabase_never_types) p
            (fix_supabase_never_types c).1 fix_any_to_never_errors) p
            (fix_any_to_never_errors (fix_supabase_never_types c).1).1 fix_error_handling,
          (fix_supabase_never_types c).2 +
            ((fix_any_to_never_errors (fix_supabase_never_types c).1).2 +
              (fix_error_handling (fix_any_to_never_errors (fix_supabase_never_types c).1).1).2),
          ruleTrace p c fix_supabase_never_types ++
            (ruleTrace p (fix_supabase_never_types c).1 fix_any_to_never_errors ++
              ruleTrace p (fix_any_to_never_errors (fix_supabase_never_types c).1).1
                fix_error_handling)) := by
  have h1 := applyRuleFile_ok2 fix_supabase_never_types fs [] p c hread
  have hr1 := readFS_ruleFS fix_supabase_never_types fs p c hread
  have h2 := applyRuleFile_ok2 fix_any_to_never_errors
    (ruleFS fs p c fix_supabase_never_types) (ruleTrace p c fix_supabase_never_types) p
    (fix_supabase_never_types c).1 hr1
  have hr2 := readFS_ruleFS fix_any_to_never_errors
    (ruleFS fs p c fix_supabase_never_types) p (fix_supabase_never_types c).1 hr1
  have h3 := applyRuleFile_ok2 fix_error_handling
    (ruleFS (ruleFS fs p c fix_supabase_never_types) p (fix_supabase_never_types c).1
      fix_any_to_never_errors)
    (ruleTrace p c fix_supabase_never_types ++
      ruleTrace p (fix_supabase_never_types c).1 fix_any_to_never_errors) p
    (fix_any_to_never_errors (fix_supabase_never_types c).1).1 hr2
  unfold processFile
  rw [h1, except_bind_ok]
  dsimp only
  simp only [List.nil_append]
  rw [h2, except_bind_ok]
  dsimp only
  rw [h3, except_bind_ok]
  dsimp only
  simp [List.append_assoc, Nat.add_assoc]

theorem countReads_append (a b : List Ev) :
    countReads (a ++ b) = countReads a + countReads b := by
  simp [countReads, List.filter_append]

theorem countWrites_append (a b : List Ev) :
    countWrites (a ++ b) = countWrites a + countWrites b := by
  simp [countWrites, List.filter_append]

theorem countReads_ruleTrace (p c : String) (rule : String → String × Nat) :
    countReads (ruleTrace p c rule) = 1 := by
  unfold ruleTrace
  split <;> simp [countReads]

theorem countWrites_ruleTrace (p c : String) (rule : String → String × Nat) :
    countWrites (ruleTrace p c rule) = if (rule c).1 = c then 0 else 1 := by
  unfold ruleTrace
  split <;> simp [countWrites]

/-- Claim C6, amended: during one pass an existing ranked file is read once by
each of the three rule functions — three reads, not one — and each function
writes at most once, exactly when its own transformation changed the content
it read, so the file is written between zero and three times. -/
theorem per_rule_read_write_discipline (fs : FS) (p c : String)
    (hread : readFS fs p = some c) :
    ∃ fs' k tr, processFile (fun _ => false) fs [] p = Except.ok (fs', k, tr) ∧
      countReads tr = 3 ∧
      countWrites tr =
        ((if (fix_supabase_never_types c).1 = c then 0 else 1) +
          ((if (fix_any_to_never_errors (fix_supabase_never_types c).1).1 =
              (fix_supabase_never_types c).1 then 0 else 1) +
            (if (fix_error_handling (fix_any_to_never_errors (fix_supabase_never_types c).1).1).1 =
              (fix_any_to_never_errors (fix_supabase_never_types c).1).1 then 0 else 1))) ∧
      countWrites tr ≤ 3 := by
  refine ⟨_, _, _, processFile_ok fs p c hread, ?_, ?_, ?_⟩
  · simp [countReads_append, countReads_ruleTrace]
  · simp [countWrites_append, countWrites_ruleTrace]
  · simp only [countWrites_append, countWrites_ruleTrace]
    split <;> split <;> split <;> omega

/-- Claim C6, witness: the amended statement at the concrete one-file
environment of the counterexample. -/
theorem per_rule_read_write_discipline_witness :
    readFS fsC6 "f.ts" = some c6Input ∧
    (∃ fs' k tr, processFile (fun _ => false) fsC6 [] "f.ts" = Except.ok (fs', k, tr) ∧
      countReads tr = 3 ∧
      countWrites tr =
        ((if (fix_supabase_never_types c6Input).1 = c6Input then 0 else 1) +
          ((if (fix_any_to_never_errors (fix_supabase_never_types c6Input).1).1 =
              (fix_supabase_never_types c6Input).1 then 0 else 1) +
            (if (fix_error_handling
                (fix_any_to_never_errors (fix_supabase_never_types c6Input).1).1).1 =
              (fix_any_to_never_errors (fix_supabase_never_types c6Input).1).1 then 0 else 1))) ∧
      countWrites tr ≤ 3) :=
  ⟨rfl, per_rule_read_write_discipline fsC6 "f.ts" c6Input rfl⟩

/-- Claim C7, counterexample: the argument 123 is a numeric literal — neither
a bare identifier nor an object literal — yet the unsound-argument rule
rewrites it and counts one fix. -/
theorem numeric_literal_argument_rewritten :
    fix_supabase_never_types "db.insert(123)" = ("db.insert(123 as any)", 1) ∧
    spec_bare_identifier "123" = false ∧ spec_object_literal "123" = false :=
  ⟨rfl, rfl, rfl⟩

/-- Claim C7, amended: the rule rewrites exactly when the stripped argument
starts with an opening brace or is a nonempty run of word characters (which
includes pure digit sequences) and carries no assertion; an argument of any
other shape is returned character-for-character unchanged and contributes 0. -/
theorem non_simple_argument_untouched (method arg : Chars)
    (hbrace : startsWithL ['\x7b'] (stripWs arg) = false)
    (hword : (stripWs arg).isEmpty = true ∨ (stripWs arg).all isWordChar = false) :
    fix_insert_update method arg = ('.' :: (method ++ '(' :: (arg ++ [')'])), 0) := by
  have hcond : (startsWithL ['\x7b'] (stripWs arg) ||
      (!(stripWs arg).isEmpty && (stripWs arg).all isWordChar)) = false := by
    rcases hword with h | h <;> simp [hbrace, h]
  unfold fix_insert_update
  rw [hcond]
  simp

/-- Claim C7, witness: a function-call-shaped argument is untouched and
contributes 0. -/
theorem non_simple_argument_untouched_witness :
    startsWithL ['\x7b'] (stripWs "f(x".data) = false ∧
    (stripWs "f(x".data).all isWordChar = false ∧
    fix_insert_update "insert".data "f(x".data = (".insert(f(x)".data, 0) :=
  ⟨rfl, rfl, non_simple_argument_untouched "insert".data "f(x".data rfl (Or.inr rfl)⟩

/-- Claim C8, counterexample: a line of the spec's diagnostic shape whose code
is AB12 — matching the spec's code format — produces no record at all, because
the parser's pattern requires a code starting with TS (and a path ending in
.ts or .tsx). -/
theorem spec_shape_line_dropped :
    spec_diagnostic_shape c8Line = true ∧ parse_errors [c8Line] = [] :=
  ⟨rfl, rfl⟩

theorem totalErrors_insertDiag (g : List (String × List Diag)) (p : String) (d : Diag) :
    totalErrors (insertDiag g p d) = totalErrors g + 1 := by
  induction g with
  | nil => simp [insertDiag, totalErrors]
  | cons h t ih =>
    rcases h with ⟨q, ds⟩
    unfold insertDiag
    by_cases hq : q = p
    · simp [hq, totalErrors]
      omega
    · simp only [if_neg hq, totalErrors, List.map_cons, List.sum_cons] at ih ⊢
      omega

theorem parse_total_aux (lines : List String) :
    ∀ g, totalErrors (List.foldl parseStep g lines) =
      totalErrors g + (lines.filter (fun l => (matchLine l).isSome)).length := by
  induction lines with
  | nil => intro g; simp
  | cons l t ih =>
    intro g
    rw [List.foldl_cons, ih]
    unfold parseStep
    cases hm : matchLine l with
    | none => simp [List.filter_cons, hm]
    | some pd =>
      rcases pd with ⟨p, d⟩
      simp [List.filter_cons, hm, totalErrors_insertDiag]
      omega

/-- Claim C8, amended: exactly the lines matched by the code's pattern (path
ending in .ts or .tsx, code of the form TS followed by digits) contribute one
record each — the total record count is the number of matching lines — and the
line and column numbers are taken verbatim, so a zero line number is accepted
as is. -/
theorem parser_counts_matched_lines :
    (∀ lines : List String, totalErrors (parse_errors lines) =
      (lines.filter (fun l => (matchLine l).isSome)).length) ∧
    parse_errors [c8ZeroLine] = [("b.tsx", [⟨0, 0, "TS1", "zero"⟩])] := by
  refine ⟨fun lines => ?_, rfl⟩
  unfold parse_errors
  rw [parse_total_aux]
  simp [totalErrors]

theorem mem_insertRanked (x z : String × List Diag) :
    ∀ l, z ∈ insertRanked x l → z = x ∨ z ∈ l := by
  intro l
  induction l with
  | nil =>
    intro h
    simp [insertRanked] at h
    exact Or.inl h
  | cons y ys ih =>
    intro h
    unfold insertRanked at h
    by_cases hxy : x.2.length > y.2.length
    · rw [if_pos hxy] at h
      rcases List.mem_cons.mp h with h1 | h2
      · exact Or.inl h1
      · exact Or.inr h2
    · rw [if_neg hxy] at h
      rcases List.mem_cons.mp h with h1 | h2
      · exact Or.inr (h1 ▸ List.mem_cons_self y ys)
      · rcases ih h2 with h3 | h4
        · exact Or.inl h3
        · exact Or.inr (List.mem_cons_of_mem y h4)

theorem pairwise_insertRanked (x : String × List Diag) :
    ∀ l : List (String × List Diag),
      l.Pairwise (fun a b => b.2.length ≤ a.2.length) →
      (insertRanked x l).Pairwise (fun a b => b.2.length ≤ a.2.length) := by
  intro l
  induction l with
  | nil =>
    intro _
    simp [insertRanked]
  | cons y ys ih =>
    intro h
    rw [List.pairwise_cons] at h
    obtain ⟨hy, hys⟩ := h
    unfold insertRanked
    by_cases hxy : x.2.length > y.2.length
    · rw [if_pos hxy]
      refine List.Pairwise.cons ?_ (List.Pairwise.cons hy hys)
      intro z hz
      rcases List.mem_cons.mp hz with h1 | h2
      · exact h1 ▸ Nat.le_of_lt hxy
      · exact Nat.le_trans (hy z h2) (Nat.le_of_lt hxy)
    · rw [if_neg hxy]
      refine List.Pairwise.cons ?_ (ih hys)
      intro z hz
      rcases mem_insertRanked x z ys hz with h1 | h2
      · exact h1 ▸ Nat.le_of_not_lt hxy
      · exact hy z h2

theorem pairwise_rankFiles_aux (g : List (String × List Diag)) :
    ∀ acc, acc.Pairwise (fun a b => b.2.length ≤ a.2.length) →
      (g.foldl (fun a x => insertRanked x a) acc).Pairwise
        (fun a b => b.2.length ≤ a.2.length) := by
  induction g with
  | nil => intro acc h; simpa using h
  | cons x xs ih =>
    intro acc h
    rw [List.foldl_cons]
    exact ih _ (pairwise_insertRanked x acc h)

/-- Claim C9: the aggregator ranks files by descending diagnostic count (every
ranked list is pairwise descending in count), and ties are broken by first-seen
order: the grouping a.ts 3, b.ts 1, c.ts 3 discovered in that order ranks as
a.ts, c.ts, b.ts. -/
theorem ranking_descending_stable :
    (∀ g : List (String × List Diag),
      (rankFiles g).Pairwise (fun a b => b.2.length ≤ a.2.length)) ∧
    (rankFiles (parse_errors c9Lines)).map (fun x => (x.1, x.2.length)) =
      [("a.ts", 3), ("c.ts", 3), ("b.ts", 1)] := by
  refine ⟨fun g => ?_, rfl⟩
  unfold rankFiles
  exact pairwise_rankFiles_aux g [] List.Pairwise.nil

/-- Claim C10: every run of main that returns normally returns exit code 0 —
whether the checker invocation failed, whether any diagnostics remained, and
whether any file was patched make no difference to the exit status. -/
theorem main_exit_code_zero (t1 t2 : Except String TscOut) (fs : FS)
    (wfail : String → Bool) (s : RunSummary)
    (h : mainRun t1 t2 fs wfail = Except.ok s) : s.exit = 0 := by
  unfold mainRun at h
  dsimp only at h
  split at h
  · cases h
    rfl
  · split at h
    · exact absurd h (by simp)
    · cases h
      rfl

/-- Claim C10, witness: the exit-code theorem applied to a concrete run. -/
theorem main_exit_code_zero_witness :
    mainRun (Except.error "x") (Except.error "y") [] (fun _ => false) =
      Except.ok c10Summary ∧ c10Summary.exit = 0 :=
  ⟨rfl, main_exit_code_zero (Except.error "x") (Except.error "y") [] (fun _ => false)
    c10Summary rfl⟩

end FixTs
